import Mathlib

/-!
Formal model of `crypto_ctx.c` (ksmbd/cifsd): a bounded, concurrency-aware
pool of reusable crypto contexts.

Shallow embedding conventions:
  * The global `struct crypto_ctx_list ctx_list` becomes the explicit state
    `CryptoCtxList`, threaded through every operation.
  * `struct cifsd_crypto_ctx` becomes `CifsdCryptoCtx`.  Heap identity of a
    context is modelled by the bookkeeping field `ctxId`; the pool state keeps
    a `nextId` counter so that a freshly allocated context has an identity
    distinct from every previously allocated one.
  * Engine handles (`struct shash_desc *`, `struct crypto_aead *`) are opaque
    to this file and are modelled as `Nat` tags.  The external provider
    (`alloc_shash_desc` / `alloc_aead`, which may fail) is a parameter
    `Nat → Option EngineHandle`; `none` is the "unavailable" result.
  * `cifsd_alloc` (from `buffer_pool.h`) may fail; each call site takes a
    Boolean oracle `allocOk` saying whether that allocation succeeds.
  * `num_online_cpus()` (the target concurrency bound) is the parameter `B`.
  * `cifsd_find_crypto_ctx` is a `while (1)` loop whose iterations either
    return a context or block on `wait_event(..., !list_empty(&idle_ctx))`
    and then retry.  One iteration is modelled by
    `cifsd_find_crypto_ctx_step`, whose outcome is either `found ctx st` or
    `blocked st` (the caller sleeps until the idle set is non-empty, then
    runs another iteration).  To expose the state in which a caller is
    actively trying to create a new context (between the under-lock counter
    increment at line 173 and the `ctx_alloc()` result at line 176), the
    iteration is split into the under-lock phase `find_lock_phase` and the
    out-of-lock allocation phase `find_grow_phase`.
-/

/-- Opaque engine handle obtained from the external crypto provider. -/
abbrev EngineHandle := Nat

/-- Modelled from the spec: `CRYPTO_SHASH_MAX` from `crypto_ctx.h` (the header
is not under `src/`), the size of the keyed-hash slot array.  The six cases of
the `switch` in `alloc_shash_desc` (HMACMD5, HMACSHA256, CMACAES, SHA512, MD4,
MD5) enumerate the family, so the bound is 6. -/
def CRYPTO_SHASH_MAX : Nat := 6

/-- Modelled from the spec: `CRYPTO_AEAD_MAX` from `crypto_ctx.h` (the header
is not under `src/`), the size of the AEAD slot array.  The two cases of the
`switch` in `alloc_aead` (AES128_GCM, AES128_CCM) enumerate the family, so the
bound is 2. -/
def CRYPTO_AEAD_MAX : Nat := 2

/-- Hash/MAC identifier used in concrete witnesses (`CRYPTO_SHASH_SHA512`). -/
def CRYPTO_SHASH_SHA512 : Nat := 3

/-- AEAD identifier used in concrete witnesses (`CRYPTO_AEAD_AES128_GCM`). -/
def CRYPTO_AEAD_AES128_GCM : Nat := 0

/-- Model of `struct cifsd_crypto_ctx`: per-family slot arrays holding at most
one lazily created engine handle per algorithm identifier, plus the modelled
heap identity `ctxId`. -/
structure CifsdCryptoCtx where
  ctxId : Nat
  desc : List (Option EngineHandle)
  ccmaes : List (Option EngineHandle)
deriving DecidableEq

/-- Model of a successful `ctx_alloc()`: `cifsd_alloc` returns a
zero-initialized block (per the spec, contexts are "created empty by the
Context Pool"), so every slot starts `none`; `n` is the fresh identity. -/
def ctx_alloc (n : Nat) : CifsdCryptoCtx :=
  { ctxId := n
  , desc := List.replicate CRYPTO_SHASH_MAX none
  , ccmaes := List.replicate CRYPTO_AEAD_MAX none }

/-- Model of `struct crypto_ctx_list`: the allocated-or-reserved counter
`avail_ctx`, the idle list `idle_ctx` (head = `idle_ctx.next`, since
`list_add` inserts at the head), and the fresh-identity counter (a modelling
device standing for heap addresses never being reused while allocated). -/
structure CryptoCtxList where
  avail_ctx : Int
  idle_ctx : List CifsdCryptoCtx
  nextId : Nat
deriving DecidableEq

/-- Outcome of one iteration of the `while (1)` loop of
`cifsd_find_crypto_ctx`: either a context is returned, or the caller blocks
on `wait_event` until the idle set is non-empty and then retries.  There is no
constructor carrying "no context": the loop never returns NULL. -/
inductive FindOutcome where
  | found : CifsdCryptoCtx → CryptoCtxList → FindOutcome
  | blocked : CryptoCtxList → FindOutcome
deriving DecidableEq

/-- Decision taken by `cifsd_find_crypto_ctx` under `ctx_lock`. -/
inductive LockPhase where
  | took : CifsdCryptoCtx → LockPhase
  | waitIdle : LockPhase
  | growing : LockPhase
deriving DecidableEq

/-- Under-lock phase of one acquire iteration (lines 156-174): take the head
of the idle list if non-empty; otherwise, if `avail_ctx > B`, decide to wait;
otherwise increment `avail_ctx` and decide to grow.  The returned state is the
state at lock release. -/
def find_lock_phase (B : Int) (st : CryptoCtxList) : LockPhase × CryptoCtxList :=
  match st.idle_ctx with
  | c :: rest => (LockPhase.took c, { st with idle_ctx := rest })
  | [] =>
    if st.avail_ctx > B then (LockPhase.waitIdle, st)
    else (LockPhase.growing, { st with avail_ctx := st.avail_ctx + 1 })

/-- Out-of-lock allocation phase after a `growing` decision (lines 176-185):
on success return the brand-new context; on failure re-take the lock,
decrement `avail_ctx` back, and block until the idle set is non-empty. -/
def find_grow_phase (allocOk : Bool) (st : CryptoCtxList) : FindOutcome :=
  if allocOk then
    FindOutcome.found (ctx_alloc st.nextId) { st with nextId := st.nextId + 1 }
  else
    FindOutcome.blocked { st with avail_ctx := st.avail_ctx - 1 }

/-- One iteration of `cifsd_find_crypto_ctx` (lines 155-186). -/
def cifsd_find_crypto_ctx_step (B : Int) (allocOk : Bool) (st : CryptoCtxList) : FindOutcome :=
  match find_lock_phase B st with
  | (LockPhase.took c, st') => FindOutcome.found c st'
  | (LockPhase.waitIdle, st') => FindOutcome.blocked st'
  | (LockPhase.growing, st') => find_grow_phase allocOk st'

/-- State reached after one acquire iteration, whichever way it ended. -/
def findOutState : FindOutcome → CryptoCtxList
  | FindOutcome.found _ st => st
  | FindOutcome.blocked st => st

/-- Result of `cifsd_release_crypto_ctx`: the new pool state, whether
`wake_up(&ctx_wait)` was called, and whether the context was destroyed
(`ctx_free`) rather than pooled. -/
structure ReleaseOut where
  st : CryptoCtxList
  woke : Bool
  destroyed : Bool
deriving DecidableEq

/-- Model of `cifsd_release_crypto_ctx` (lines 190-206): NULL is a no-op;
otherwise, if `avail_ctx <= B`, insert the context at the head of the idle
list and wake the waiters; otherwise decrement `avail_ctx` and destroy the
context. -/
def cifsd_release_crypto_ctx (B : Int) (ctx : Option CifsdCryptoCtx) (st : CryptoCtxList) : ReleaseOut :=
  match ctx with
  | none => { st := st, woke := false, destroyed := false }
  | some c =>
    if st.avail_ctx ≤ B then
      { st := { st with idle_ctx := c :: st.idle_ctx }, woke := true, destroyed := false }
    else
      { st := { st with avail_ctx := st.avail_ctx - 1 }, woke := false, destroyed := true }

/-- Result of the slot-ensure step: on success the (possibly updated) context
together with the handle now in the slot; `invoked` records whether the
external Factory was called. -/
structure EnsureOut where
  res : Option (CifsdCryptoCtx × EngineHandle)
  invoked : Bool
deriving DecidableEq

/-- Slot-ensure step of `____crypto_shash_ctx_find` (lines 216-221): return
the cached handle if `desc[id]` is populated; otherwise invoke the Factory
(`alloc_shash_desc`), store a successful result in the slot, and report
failure (slot left empty) when the Factory is unavailable. -/
def shash_ensure (allocShash : Nat → Option EngineHandle) (id : Nat) (ctx : CifsdCryptoCtx) : EnsureOut :=
  match ctx.desc.getD id none with
  | some h => { res := some (ctx, h), invoked := false }
  | none =>
    match allocShash id with
    | some h => { res := some ({ ctx with desc := ctx.desc.set id (some h) }, h), invoked := true }
    | none => { res := none, invoked := true }

/-- Slot-ensure step of `____crypto_aead_ctx_find` (lines 264-269), the AEAD
counterpart of `shash_ensure` over the `ccmaes` slot array. -/
def aead_ensure (allocAead : Nat → Option EngineHandle) (id : Nat) (ctx : CifsdCryptoCtx) : EnsureOut :=
  match ctx.ccmaes.getD id none with
  | some h => { res := some (ctx, h), invoked := false }
  | none =>
    match allocAead id with
    | some h => { res := some ({ ctx with ccmaes := ctx.ccmaes.set id (some h) }, h), invoked := true }
    | none => { res := none, invoked := true }

/-- Outcome of a family lookup (`____crypto_shash_ctx_find` /
`____crypto_aead_ctx_find`): a returned value (a context, or NULL) together
with the pool state, or a block inside the inner acquire. -/
inductive CtxFindOutcome where
  | ret : Option CifsdCryptoCtx → CryptoCtxList → CtxFindOutcome
  | blockedOn : CryptoCtxList → CtxFindOutcome
deriving DecidableEq

/-- Model of `____crypto_shash_ctx_find` (lines 208-224): reject an
out-of-range identifier before touching the pool; otherwise acquire a context,
run the slot-ensure step, and on Factory failure release the acquired context
back to the pool and return NULL. -/
def crypto_shash_ctx_find (B : Int) (allocOk : Bool) (allocShash : Nat → Option EngineHandle)
    (id : Nat) (st : CryptoCtxList) : CtxFindOutcome :=
  if CRYPTO_SHASH_MAX ≤ id then CtxFindOutcome.ret none st
  else
    match cifsd_find_crypto_ctx_step B allocOk st with
    | FindOutcome.found ctx st' =>
      match (shash_ensure allocShash id ctx).res with
      | some (ctx', _) => CtxFindOutcome.ret (some ctx') st'
      | none => CtxFindOutcome.ret none (cifsd_release_crypto_ctx B (some ctx) st').st
    | FindOutcome.blocked st' => CtxFindOutcome.blockedOn st'

/-- Model of `____crypto_aead_ctx_find` (lines 256-272), the AEAD counterpart
of `crypto_shash_ctx_find`. -/
def crypto_aead_ctx_find (B : Int) (allocOk : Bool) (allocAead : Nat → Option EngineHandle)
    (id : Nat) (st : CryptoCtxList) : CtxFindOutcome :=
  if CRYPTO_AEAD_MAX ≤ id then CtxFindOutcome.ret none st
  else
    match cifsd_find_crypto_ctx_step B allocOk st with
    | FindOutcome.found ctx st' =>
      match (aead_ensure allocAead id ctx).res with
      | some (ctx', _) => CtxFindOutcome.ret (some ctx') st'
      | none => CtxFindOutcome.ret none (cifsd_release_crypto_ctx B (some ctx) st').st
    | FindOutcome.blocked st' => CtxFindOutcome.blockedOn st'

/-- Model of `cifsd_crypto_destroy` (lines 309-320): pop and `ctx_free` every
idle context until the idle list is empty; `avail_ctx` is not touched. -/
def cifsd_crypto_destroy (st : CryptoCtxList) : CryptoCtxList :=
  { st with idle_ctx := [] }

/-- Linux `ENOMEM` errno value. -/
def ENOMEM : Int := 12

/-- Model of `cifsd_crypto_create` (lines 322-336): set `avail_ctx := 1` with
an empty idle list, then allocate the seed context; on success insert it idle
and return 0, on failure return `-ENOMEM`. -/
def cifsd_crypto_create (allocOk : Bool) : Int × CryptoCtxList :=
  let st : CryptoCtxList := { avail_ctx := 1, idle_ctx := [], nextId := 0 }
  if allocOk then
    (0, { st with idle_ctx := [ctx_alloc st.nextId], nextId := st.nextId + 1 })
  else
    (-ENOMEM, st)

/-- One pool transition: an acquire iteration (with either allocator
outcome), a release of an arbitrary (possibly absent) context, or a shutdown
drain. -/
inductive PoolStep (B : Int) : CryptoCtxList → CryptoCtxList → Prop where
  | find (allocOk : Bool) (st : CryptoCtxList) :
      PoolStep B st (findOutState (cifsd_find_crypto_ctx_step B allocOk st))
  | release (c : Option CifsdCryptoCtx) (st : CryptoCtxList) :
      PoolStep B st (cifsd_release_crypto_ctx B c st).st
  | destroy (st : CryptoCtxList) :
      PoolStep B st (cifsd_crypto_destroy st)

/-- States reachable from an initialized pool (either `cifsd_crypto_create`
outcome) by pool transitions. -/
inductive PoolReachable (B : Int) : CryptoCtxList → Prop where
  | init (allocOk : Bool) : PoolReachable B (cifsd_crypto_create allocOk).2
  | step {st st' : CryptoCtxList} :
      PoolReachable B st → PoolStep B st st' → PoolReachable B st'

/-! Concrete sanity checks of the model (kept as anonymous examples). -/

example :
    cifsd_find_crypto_ctx_step 4 true { avail_ctx := 1, idle_ctx := [ctx_alloc 0], nextId := 1 } =
      FindOutcome.found (ctx_alloc 0) { avail_ctx := 1, idle_ctx := [], nextId := 1 } := by decide

example :
    cifsd_find_crypto_ctx_step 4 true { avail_ctx := 1, idle_ctx := [], nextId := 1 } =
      FindOutcome.found (ctx_alloc 1) { avail_ctx := 2, idle_ctx := [], nextId := 2 } := by decide

example :
    cifsd_find_crypto_ctx_step 4 false { avail_ctx := 1, idle_ctx := [], nextId := 1 } =
      FindOutcome.blocked { avail_ctx := 1, idle_ctx := [], nextId := 1 } := by decide

example :
    cifsd_find_crypto_ctx_step 4 true { avail_ctx := 5, idle_ctx := [], nextId := 1 } =
      FindOutcome.blocked { avail_ctx := 5, idle_ctx := [], nextId := 1 } := by decide

example :
    crypto_shash_ctx_find 1 true (fun _ => none) CRYPTO_SHASH_SHA512
        { avail_ctx := 1, idle_ctx := [ctx_alloc 0], nextId := 1 } =
      CtxFindOutcome.ret none { avail_ctx := 1, idle_ctx := [ctx_alloc 0], nextId := 1 } := by decide

example :
    crypto_shash_ctx_find 1 true (fun _ => some 7) CRYPTO_SHASH_SHA512
        { avail_ctx := 1, idle_ctx := [ctx_alloc 0], nextId := 1 } =
      CtxFindOutcome.ret
        (some { ctxId := 0
              , desc := [none, none, none, some 7, none, none]
              , ccmaes := [none, none] })
        { avail_ctx := 1, idle_ctx := [], nextId := 1 } := by decide

/-- Claim C1: an acquire iteration that finds the idle set empty and the
allocated-or-reserved counter not greater than the bound `B` increments the
counter, constructs a brand-new context (identity `st.nextId`, never seen
before), and on successful construction returns it directly; the idle set is
left exactly as it was and the new context is not a member of it. -/
theorem claim_C1_grow_returns_fresh_directly (B : Int) (st : CryptoCtxList)
    (hidle : st.idle_ctx = []) (hle : st.avail_ctx ≤ B) :
    cifsd_find_crypto_ctx_step B true st =
      FindOutcome.found (ctx_alloc st.nextId)
        { avail_ctx := st.avail_ctx + 1, idle_ctx := st.idle_ctx, nextId := st.nextId + 1 } ∧
    ctx_alloc st.nextId ∉
      (findOutState (cifsd_find_crypto_ctx_step B true st)).idle_ctx := by
  have hgt : ¬ st.avail_ctx > B := by omega
  constructor
  · simp [cifsd_find_crypto_ctx_step, find_lock_phase, find_grow_phase, hidle, hgt]
  · simp [cifsd_find_crypto_ctx_step, find_lock_phase, find_grow_phase, findOutState,
      hidle, hgt]

/-- Witness for C1 at a concrete input: bound 2, counter 1, empty idle set. -/
theorem claim_C1_witness :
    cifsd_find_crypto_ctx_step 2 true { avail_ctx := 1, idle_ctx := [], nextId := 1 } =
      FindOutcome.found (ctx_alloc 1) { avail_ctx := 2, idle_ctx := [], nextId := 2 } ∧
    ctx_alloc 1 ∉
      (findOutState
        (cifsd_find_crypto_ctx_step 2 true
          { avail_ctx := 1, idle_ctx := [], nextId := 1 })).idle_ctx := by
  have h := claim_C1_grow_returns_fresh_directly 2
    { avail_ctx := 1, idle_ctx := [], nextId := 1 } rfl (by decide)
  exact h

/-- Claim C2: releasing a non-null context with the counter within the bound
inserts the context into the idle set, wakes the waiters, and leaves the
counter unchanged; with the counter above the bound it decrements the counter
and destroys the context without pooling it. -/
theorem claim_C2_release_pool_or_destroy (B : Int) (c : CifsdCryptoCtx) (st : CryptoCtxList) :
    (st.avail_ctx ≤ B →
      (cifsd_release_crypto_ctx B (some c) st).st.idle_ctx = c :: st.idle_ctx ∧
      (cifsd_release_crypto_ctx B (some c) st).st.avail_ctx = st.avail_ctx ∧
      (cifsd_release_crypto_ctx B (some c) st).woke = true ∧
      (cifsd_release_crypto_ctx B (some c) st).destroyed = false) ∧
    (B < st.avail_ctx →
      (cifsd_release_crypto_ctx B (some c) st).st.avail_ctx = st.avail_ctx - 1 ∧
      (cifsd_release_crypto_ctx B (some c) st).st.idle_ctx = st.idle_ctx ∧
      (cifsd_release_crypto_ctx B (some c) st).woke = false ∧
      (cifsd_release_crypto_ctx B (some c) st).destroyed = true) := by
  constructor
  · intro h
    simp [cifsd_release_crypto_ctx, h]
  · intro h
    have h2 : ¬ st.avail_ctx ≤ B := by omega
    simp [cifsd_release_crypto_ctx, h2]

/-- Witness for C2: the pooling branch at counter 1, bound 2, and the
destroying branch at counter 3, bound 2. -/
theorem claim_C2_witness :
    ((cifsd_release_crypto_ctx 2 (some (ctx_alloc 0))
        { avail_ctx := 1, idle_ctx := [], nextId := 1 }).st.idle_ctx = ctx_alloc 0 :: [] ∧
      (cifsd_release_crypto_ctx 2 (some (ctx_alloc 0))
        { avail_ctx := 1, idle_ctx := [], nextId := 1 }).st.avail_ctx = 1 ∧
      (cifsd_release_crypto_ctx 2 (some (ctx_alloc 0))
        { avail_ctx := 1, idle_ctx := [], nextId := 1 }).woke = true ∧
      (cifsd_release_crypto_ctx 2 (some (ctx_alloc 0))
        { avail_ctx := 1, idle_ctx := [], nextId := 1 }).destroyed = false) ∧
    ((cifsd_release_crypto_ctx 2 (some (ctx_alloc 0))
        { avail_ctx := 3, idle_ctx := [], nextId := 1 }).st.avail_ctx = 3 - 1 ∧
      (cifsd_release_crypto_ctx 2 (some (ctx_alloc 0))
        { avail_ctx := 3, idle_ctx := [], nextId := 1 }).st.idle_ctx = [] ∧
      (cifsd_release_crypto_ctx 2 (some (ctx_alloc 0))
        { avail_ctx := 3, idle_ctx := [], nextId := 1 }).woke = false ∧
      (cifsd_release_crypto_ctx 2 (some (ctx_alloc 0))
        { avail_ctx := 3, idle_ctx := [], nextId := 1 }).destroyed = true) :=
  ⟨(claim_C2_release_pool_or_destroy 2 (ctx_alloc 0)
      { avail_ctx := 1, idle_ctx := [], nextId := 1 }).1 (by decide),
   (claim_C2_release_pool_or_destroy 2 (ctx_alloc 0)
      { avail_ctx := 3, idle_ctx := [], nextId := 1 }).2 (by decide)⟩

/-- Claim C4: when the idle set is empty, the counter is within the bound, and
`ctx_alloc` fails, the acquire iteration puts the counter back to its value
before the optimistic increment and ends blocked (the caller sleeps until the
idle set is non-empty and then retries the loop); the resulting state is
exactly the starting state.  The outcome grammar of `FindOutcome` has no
"absent context" constructor, so the failure is never propagated to the
acquire caller. -/
theorem claim_C4_alloc_failure_blocks_and_restores (B : Int) (st : CryptoCtxList)
    (hidle : st.idle_ctx = []) (hle : st.avail_ctx ≤ B) :
    cifsd_find_crypto_ctx_step B false st = FindOutcome.blocked st := by
  have hgt : ¬ st.avail_ctx > B := by omega
  obtain ⟨a, i, n⟩ := st
  simp only at hidle hle hgt
  subst hidle
  simp [cifsd_find_crypto_ctx_step, find_lock_phase, find_grow_phase, hgt,
    Int.add_sub_cancel]

/-- Witness for C4 at a concrete input: bound 2, counter 1, empty idle set,
failing allocator. -/
theorem claim_C4_witness :
    cifsd_find_crypto_ctx_step 2 false { avail_ctx := 1, idle_ctx := [], nextId := 1 } =
      FindOutcome.blocked { avail_ctx := 1, idle_ctx := [], nextId := 1 } :=
  claim_C4_alloc_failure_blocks_and_restores 2
    { avail_ctx := 1, idle_ctx := [], nextId := 1 } rfl (by decide)

/-- Claim C7: an acquire iteration that finds the idle set non-empty removes
its first member and returns exactly that member; the counter and the
fresh-identity counter are unchanged (no context is constructed). -/
theorem claim_C7_take_idle_member (B : Int) (allocOk : Bool) (c : CifsdCryptoCtx)
    (rest : List CifsdCryptoCtx) (st : CryptoCtxList) (hidle : st.idle_ctx = c :: rest) :
    cifsd_find_crypto_ctx_step B allocOk st =
      FindOutcome.found c
        { avail_ctx := st.avail_ctx, idle_ctx := rest, nextId := st.nextId } := by
  simp [cifsd_find_crypto_ctx_step, find_lock_phase, hidle]

/-- Witness for C7 at a concrete input: idle set holding the seed context. -/
theorem claim_C7_witness :
    cifsd_find_crypto_ctx_step 4 true { avail_ctx := 1, idle_ctx := [ctx_alloc 0], nextId := 1 } =
      FindOutcome.found (ctx_alloc 0) { avail_ctx := 1, idle_ctx := [], nextId := 1 } :=
  claim_C7_take_idle_member 4 true (ctx_alloc 0) []
    { avail_ctx := 1, idle_ctx := [ctx_alloc 0], nextId := 1 } rfl

/-- Claim C8: a family lookup with an identifier at or above the family's
enumeration bound returns NULL with the pool state untouched (idle set,
counter, identity counter, and every existing context unchanged), for both the
keyed-hash family and the AEAD family. -/
theorem claim_C8_out_of_range_rejected_locally (B : Int) (allocOk : Bool)
    (allocShash allocAead : Nat → Option EngineHandle) (idS idA : Nat) (st : CryptoCtxList) :
    (CRYPTO_SHASH_MAX ≤ idS →
      crypto_shash_ctx_find B allocOk allocShash idS st = CtxFindOutcome.ret none st) ∧
    (CRYPTO_AEAD_MAX ≤ idA →
      crypto_aead_ctx_find B allocOk allocAead idA st = CtxFindOutcome.ret none st) := by
  constructor
  · intro h
    simp [crypto_shash_ctx_find, h]
  · intro h
    simp [crypto_aead_ctx_find, h]

/-- Witness for C8: identifier 6 is out of range for the keyed-hash family and
identifier 2 is out of range for the AEAD family. -/
theorem claim_C8_witness :
    crypto_shash_ctx_find 4 true (fun _ => some 7) 6
        { avail_ctx := 1, idle_ctx := [ctx_alloc 0], nextId := 1 } =
      CtxFindOutcome.ret none { avail_ctx := 1, idle_ctx := [ctx_alloc 0], nextId := 1 } ∧
    crypto_aead_ctx_find 4 true (fun _ => some 7) 2
        { avail_ctx := 1, idle_ctx := [ctx_alloc 0], nextId := 1 } =
      CtxFindOutcome.ret none { avail_ctx := 1, idle_ctx := [ctx_alloc 0], nextId := 1 } :=
  ⟨(claim_C8_out_of_range_rejected_locally 4 true (fun _ => some 7) (fun _ => some 7) 6 2
      { avail_ctx := 1, idle_ctx := [ctx_alloc 0], nextId := 1 }).1 (by decide),
   (claim_C8_out_of_range_rejected_locally 4 true (fun _ => some 7) (fun _ => some 7) 6 2
      { avail_ctx := 1, idle_ctx := [ctx_alloc 0], nextId := 1 }).2 (by decide)⟩

/-- Claim C9: `cifsd_crypto_create` sets the counter to 1 and, if the seed
allocation succeeds, inserts exactly one seed context into the idle set and
returns 0; if the seed allocation fails it returns `-ENOMEM` with the idle set
empty (and the counter still 1). -/
theorem claim_C9_create_seed_or_enomem :
    cifsd_crypto_create true =
      (0, { avail_ctx := 1, idle_ctx := [ctx_alloc 0], nextId := 1 }) ∧
    cifsd_crypto_create false =
      (-ENOMEM, { avail_ctx := 1, idle_ctx := [], nextId := 0 }) := by
  decide

/-- Claim C10: `cifsd_crypto_destroy` empties the idle set but leaves the
allocated-or-reserved counter unchanged; a release performed after shutdown
therefore still compares against the stale counter: it destroys the context
exactly when the stale counter exceeds the bound, and otherwise re-pools it
into the drained idle set. -/
theorem claim_C10_destroy_leaves_counter (B : Int) (st : CryptoCtxList) (c : CifsdCryptoCtx) :
    (cifsd_crypto_destroy st).idle_ctx = [] ∧
    (cifsd_crypto_destroy st).avail_ctx = st.avail_ctx ∧
    (cifsd_release_crypto_ctx B (some c) (cifsd_crypto_destroy st)).destroyed =
      decide (B < st.avail_ctx) ∧
    (cifsd_release_crypto_ctx B (some c) (cifsd_crypto_destroy st)).st.idle_ctx =
      (if st.avail_ctx ≤ B then [c] else []) := by
  refine ⟨rfl, rfl, ?_, ?_⟩
  · by_cases h : st.avail_ctx ≤ B
    · have h2 : ¬ B < st.avail_ctx := by omega
      simp [cifsd_release_crypto_ctx, cifsd_crypto_destroy, h, h2]
    · have h2 : B < st.avail_ctx := by omega
      simp [cifsd_release_crypto_ctx, cifsd_crypto_destroy, h, h2]
  · by_cases h : st.avail_ctx ≤ B
    · simp [cifsd_release_crypto_ctx, cifsd_crypto_destroy, h]
    · simp [cifsd_release_crypto_ctx, cifsd_crypto_destroy, h]

/-- Setting a slot within bounds makes a later default-read of the same slot
return the stored value. -/
theorem getD_set_self (l : List (Option EngineHandle)) (i : Nat) (x : Option EngineHandle)
    (h : i < l.length) : (l.set i x).getD i none = x := by
  simp [List.getD_eq_getElem?_getD, List.getElem?_set_self', List.getElem?_eq_getElem h]

/-- Claim C6: for an in-range identifier whose slot is populated, the
slot-ensure step returns the cached handle without invoking the Factory;
consequently, starting from an empty in-range slot, running the step twice in
a row yields the same handle both times and invokes the Factory exactly once
(on the first run only).  Both slot families behave this way. -/
theorem claim_C6_slot_idempotence (allocShash allocAead : Nat → Option EngineHandle)
    (id : Nat) (ctx : CifsdCryptoCtx) (h : EngineHandle) :
    (id < CRYPTO_SHASH_MAX → ctx.desc.getD id none = some h →
      shash_ensure allocShash id ctx = { res := some (ctx, h), invoked := false }) ∧
    (ctx.desc.length = CRYPTO_SHASH_MAX → id < CRYPTO_SHASH_MAX →
      ctx.desc.getD id none = none → allocShash id = some h →
      shash_ensure allocShash id ctx =
        { res := some ({ ctx with desc := ctx.desc.set id (some h) }, h), invoked := true } ∧
      shash_ensure allocShash id { ctx with desc := ctx.desc.set id (some h) } =
        { res := some ({ ctx with desc := ctx.desc.set id (some h) }, h), invoked := false }) ∧
    (id < CRYPTO_AEAD_MAX → ctx.ccmaes.getD id none = some h →
      aead_ensure allocAead id ctx = { res := some (ctx, h), invoked := false }) ∧
    (ctx.ccmaes.length = CRYPTO_AEAD_MAX → id < CRYPTO_AEAD_MAX →
      ctx.ccmaes.getD id none = none → allocAead id = some h →
      aead_ensure allocAead id ctx =
        { res := some ({ ctx with ccmaes := ctx.ccmaes.set id (some h) }, h), invoked := true } ∧
      aead_ensure allocAead id { ctx with ccmaes := ctx.ccmaes.set id (some h) } =
        { res := some ({ ctx with ccmaes := ctx.ccmaes.set id (some h) }, h), invoked := false }) := by
  refine ⟨?_, ?_, ?_, ?_⟩
  · intro _ hslot
    unfold shash_ensure
    rw [hslot]
  · intro hlen hid hslot halloc
    have hl : id < ctx.desc.length := by rw [hlen]; exact hid
    have hget : (ctx.desc.set id (some h)).getD id none = some h := getD_set_self _ _ _ hl
    constructor
    · unfold shash_ensure
      rw [hslot, halloc]
    · unfold shash_ensure
      rw [hget]
  · intro _ hslot
    unfold aead_ensure
    rw [hslot]
  · intro hlen hid hslot halloc
    have hl : id < ctx.ccmaes.length := by rw [hlen]; exact hid
    have hget : (ctx.ccmaes.set id (some h)).getD id none = some h := getD_set_self _ _ _ hl
    constructor
    · unfold aead_ensure
      rw [hslot, halloc]
    · unfold aead_ensure
      rw [hget]

/-- Witness for C6: a populated SHA512 slot is served from the cache; on a
fresh context the SHA512 slot is populated once and then served from the
cache; likewise for the AEAD GCM slot. -/
theorem claim_C6_witness :
    (shash_ensure (fun _ => some 7) 3
        { ctxId := 0, desc := [none, none, none, some 7, none, none], ccmaes := [some 9, none] } =
      { res := some ({ ctxId := 0, desc := [none, none, none, some 7, none, none],
                       ccmaes := [some 9, none] }, 7), invoked := false }) ∧
    (shash_ensure (fun _ => some 7) 3 (ctx_alloc 0) =
      { res := some ({ ctx_alloc 0 with desc := (ctx_alloc 0).desc.set 3 (some 7) }, 7),
        invoked := true } ∧
      shash_ensure (fun _ => some 7) 3
          { ctx_alloc 0 with desc := (ctx_alloc 0).desc.set 3 (some 7) } =
        { res := some ({ ctx_alloc 0 with desc := (ctx_alloc 0).desc.set 3 (some 7) }, 7),
          invoked := false }) ∧
    (aead_ensure (fun _ => some 9) 0
        { ctxId := 0, desc := [none, none, none, some 7, none, none], ccmaes := [some 9, none] } =
      { res := some ({ ctxId := 0, desc := [none, none, none, some 7, none, none],
                       ccmaes := [some 9, none] }, 9), invoked := false }) ∧
    (aead_ensure (fun _ => some 9) 0 (ctx_alloc 0) =
      { res := some ({ ctx_alloc 0 with ccmaes := (ctx_alloc 0).ccmaes.set 0 (some 9) }, 9),
        invoked := true } ∧
      aead_ensure (fun _ => some 9) 0
          { ctx_alloc 0 with ccmaes := (ctx_alloc 0).ccmaes.set 0 (some 9) } =
        { res := some ({ ctx_alloc 0 with ccmaes := (ctx_alloc 0).ccmaes.set 0 (some 9) }, 9),
          invoked := false }) :=
  ⟨(claim_C6_slot_idempotence (fun _ => some 7) (fun _ => some 9) 3
      { ctxId := 0, desc := [none, none, none, some 7, none, none], ccmaes := [some 9, none] }
      7).1 (by decide) (by decide),
   (claim_C6_slot_idempotence (fun _ => some 7) (fun _ => some 9) 3 (ctx_alloc 0)
      7).2.1 (by decide) (by decide) (by decide) (by decide),
   (claim_C6_slot_idempotence (fun _ => some 7) (fun _ => some 9) 0
      { ctxId := 0, desc := [none, none, none, some 7, none, none], ccmaes := [some 9, none] }
      9).2.2.1 (by decide) (by decide),
   (claim_C6_slot_idempotence (fun _ => some 7) (fun _ => some 9) 0 (ctx_alloc 0)
      9).2.2.2 (by decide) (by decide) (by decide) (by decide)⟩

/-- Claim C5 counterexample: with bound 1 and the seed context idle, a SHA512
lookup whose Factory is unavailable returns NULL — the caller is handed no
context at all, so "the caller must still release the context it was given"
is false; the acquired context has already been released internally (the final
state shows it back in the idle set, the pool fully restored). -/
theorem claim_C5_counterexample :
    crypto_shash_ctx_find 1 true (fun _ => none) CRYPTO_SHASH_SHA512
        { avail_ctx := 1, idle_ctx := [ctx_alloc 0], nextId := 1 } =
      CtxFindOutcome.ret none { avail_ctx := 1, idle_ctx := [ctx_alloc 0], nextId := 1 } := by
  decide

/-- Claim C5 (amended): for every family lookup in which the acquire step
yields a context (by either acquire path: idle hit, or growth with a
brand-new context) whose in-range slot for the requested identifier is empty
and the Factory is unavailable for that identifier, the call returns a
failure indication, the slot stays empty (the very context `c` that was
acquired, unmodified, is what reaches the release), and the acquired context
is released internally by the lookup itself, exactly once, through the
ordinary release path — pooled if the counter is within the bound at release
time, destroyed otherwise.  The caller receives NULL and has nothing to
release; releasing an absent context is an accepted no-op. -/
theorem claim_C5_amended_internal_release (B : Int) (allocOk : Bool)
    (allocShash allocAead : Nat → Option EngineHandle) (idS idA : Nat)
    (c cA : CifsdCryptoCtx) (st stS stA : CryptoCtxList) :
    (idS < CRYPTO_SHASH_MAX → allocShash idS = none →
      cifsd_find_crypto_ctx_step B allocOk st = FindOutcome.found c stS →
      c.desc.getD idS none = none →
      crypto_shash_ctx_find B allocOk allocShash idS st =
        CtxFindOutcome.ret none (cifsd_release_crypto_ctx B (some c) stS).st) ∧
    (idA < CRYPTO_AEAD_MAX → allocAead idA = none →
      cifsd_find_crypto_ctx_step B allocOk st = FindOutcome.found cA stA →
      cA.ccmaes.getD idA none = none →
      crypto_aead_ctx_find B allocOk allocAead idA st =
        CtxFindOutcome.ret none (cifsd_release_crypto_ctx B (some cA) stA).st) ∧
    (∀ st2 : CryptoCtxList,
      cifsd_release_crypto_ctx B none st2 = { st := st2, woke := false, destroyed := false }) := by
  refine ⟨?_, ?_, fun st2 => rfl⟩
  · intro hid halloc hfind hslot
    have hrange : ¬ CRYPTO_SHASH_MAX ≤ idS := by omega
    have hslot' : c.desc[idS]?.getD none = none := by
      simpa [List.getD_eq_getElem?_getD] using hslot
    simp [crypto_shash_ctx_find, hrange, hfind, shash_ensure, hslot', halloc]
  · intro hid halloc hfind hslot
    have hrange : ¬ CRYPTO_AEAD_MAX ≤ idA := by omega
    have hslot' : cA.ccmaes[idA]?.getD none = none := by
      simpa [List.getD_eq_getElem?_getD] using hslot
    simp [crypto_aead_ctx_find, hrange, hfind, aead_ensure, hslot', halloc]

/-- Witness for C5 (amended): a SHA512 lookup against an unavailable Factory
on the growth path (bound 2, counter 1, idle set empty — the brand-new
context is released internally, and gets pooled since 2 ≤ 2), an AEAD-GCM
lookup on the idle-hit path (bound 1, seed context idle), and the NULL
release no-op. -/
theorem claim_C5_witness :
    crypto_shash_ctx_find 2 true (fun _ => none) 3
        { avail_ctx := 1, idle_ctx := [], nextId := 1 } =
      CtxFindOutcome.ret none
        (cifsd_release_crypto_ctx 2 (some (ctx_alloc 1))
          { avail_ctx := 2, idle_ctx := [], nextId := 2 }).st ∧
    crypto_aead_ctx_find 1 true (fun _ => none) 0
        { avail_ctx := 1, idle_ctx := [ctx_alloc 0], nextId := 1 } =
      CtxFindOutcome.ret none
        (cifsd_release_crypto_ctx 1 (some (ctx_alloc 0))
          { avail_ctx := 1, idle_ctx := [], nextId := 1 }).st ∧
    cifsd_release_crypto_ctx 1 none { avail_ctx := 1, idle_ctx := [], nextId := 1 } =
      { st := { avail_ctx := 1, idle_ctx := [], nextId := 1 }, woke := false,
        destroyed := false } :=
  ⟨(claim_C5_amended_internal_release 2 true (fun _ => none) (fun _ => none) 3 0
      (ctx_alloc 1) (ctx_alloc 1) { avail_ctx := 1, idle_ctx := [], nextId := 1 }
      { avail_ctx := 2, idle_ctx := [], nextId := 2 }
      { avail_ctx := 2, idle_ctx := [], nextId := 2 }).1
      (by decide) rfl (by decide) (by decide),
   (claim_C5_amended_internal_release 1 true (fun _ => none) (fun _ => none) 3 0
      (ctx_alloc 0) (ctx_alloc 0) { avail_ctx := 1, idle_ctx := [ctx_alloc 0], nextId := 1 }
      { avail_ctx := 1, idle_ctx := [], nextId := 1 }
      { avail_ctx := 1, idle_ctx := [], nextId := 1 }).2.1
      (by decide) rfl (by decide) (by decide),
   (claim_C5_amended_internal_release 1 true (fun _ => none) (fun _ => none) 3 0
      (ctx_alloc 0) (ctx_alloc 0) { avail_ctx := 1, idle_ctx := [], nextId := 1 }
      { avail_ctx := 1, idle_ctx := [], nextId := 1 }
      { avail_ctx := 1, idle_ctx := [], nextId := 1 }).2.2
      { avail_ctx := 1, idle_ctx := [], nextId := 1 }⟩

/-- One acquire iteration keeps the counter at most one above the bound. -/
theorem findStep_avail_le {B : Int} {st : CryptoCtxList} (allocOk : Bool)
    (h : st.avail_ctx ≤ B + 1) :
    (findOutState (cifsd_find_crypto_ctx_step B allocOk st)).avail_ctx ≤ B + 1 := by
  cases hi : st.idle_ctx with
  | cons c rest =>
    simp [cifsd_find_crypto_ctx_step, find_lock_phase, findOutState, hi]
    omega
  | nil =>
    by_cases hgt : st.avail_ctx > B
    · simp [cifsd_find_crypto_ctx_step, find_lock_phase, findOutState, hi, hgt]
      omega
    · cases allocOk with
      | true =>
        simp [cifsd_find_crypto_ctx_step, find_lock_phase, find_grow_phase, findOutState,
          hi, hgt]
        omega
      | false =>
        simp [cifsd_find_crypto_ctx_step, find_lock_phase, find_grow_phase, findOutState,
          hi, hgt]
        omega

/-- A release keeps the counter at most one above the bound. -/
theorem release_avail_le {B : Int} {st : CryptoCtxList} (c : Option CifsdCryptoCtx)
    (h : st.avail_ctx ≤ B + 1) :
    (cifsd_release_crypto_ctx B c st).st.avail_ctx ≤ B + 1 := by
  cases c with
  | none => simpa [cifsd_release_crypto_ctx] using h
  | some c =>
    by_cases hle : st.avail_ctx ≤ B
    · simp [cifsd_release_crypto_ctx, hle]
      omega
    · simp [cifsd_release_crypto_ctx, hle]
      omega

/-- In every reachable pool state the allocated-or-reserved counter is at most
one above the target concurrency bound. -/
theorem poolReachable_avail_le {B : Int} (hB : 0 ≤ B) {st : CryptoCtxList}
    (hr : PoolReachable B st) : st.avail_ctx ≤ B + 1 := by
  induction hr with
  | init allocOk =>
    cases allocOk <;> simp [cifsd_crypto_create] <;> omega
  | step hprev hstep ih =>
    cases hstep with
    | find allocOk st => exact findStep_avail_le allocOk ih
    | release c st => exact release_avail_le c ih
    | destroy st => simpa [cifsd_crypto_destroy] using ih

/-- Claim C3 counterexample: with bound 1, after initialization and one
acquire of the seed context, the pool state (counter 1, idle set empty) is
reachable; from it the under-lock phase decides to grow, and the counter while
the caller is actively trying to create the new context is 2, which exceeds
the bound 1 — the claim's "never exceeds the bound while actively creating"
fails by exactly the caller's own optimistic reservation. -/
theorem claim_C3_counterexample :
    PoolReachable 1 { avail_ctx := 1, idle_ctx := [], nextId := 1 } ∧
    (find_lock_phase 1 { avail_ctx := 1, idle_ctx := [], nextId := 1 }).1 =
      LockPhase.growing ∧
    (find_lock_phase 1 { avail_ctx := 1, idle_ctx := [], nextId := 1 }).2.avail_ctx = 2 ∧
    ¬ (find_lock_phase 1 { avail_ctx := 1, idle_ctx := [], nextId := 1 }).2.avail_ctx ≤ 1 := by
  refine ⟨?_, by decide, by decide, by decide⟩
  have h0 : PoolReachable 1 (cifsd_crypto_create true).2 := PoolReachable.init true
  have h1 : PoolStep 1 (cifsd_crypto_create true).2
      (findOutState (cifsd_find_crypto_ctx_step 1 true (cifsd_crypto_create true).2)) :=
    PoolStep.find true (cifsd_crypto_create true).2
  have he : findOutState (cifsd_find_crypto_ctx_step 1 true (cifsd_crypto_create true).2) =
      { avail_ctx := 1, idle_ctx := [], nextId := 1 } := by decide
  exact he ▸ PoolReachable.step h0 h1

/-- Claim C3 (amended): in every reachable state the counter is at most
`B + 1`; the counter is incremented only after the under-lock check that it
does not exceed `B`, so whenever the under-lock phase decides to grow, the
pre-increment counter is at most `B` and the counter while the caller is
actively trying to create the new context is exactly one above it (hence at
most `B + 1`, not `B`). -/
theorem claim_C3_amended_counter_bound (B : Int) (st : CryptoCtxList)
    (hB : 0 ≤ B) (hr : PoolReachable B st) :
    st.avail_ctx ≤ B + 1 ∧
    ((find_lock_phase B st).1 = LockPhase.growing →
      st.avail_ctx ≤ B ∧
      (find_lock_phase B st).2.avail_ctx = st.avail_ctx + 1 ∧
      (find_lock_phase B st).2.avail_ctx ≤ B + 1) := by
  refine ⟨poolReachable_avail_le hB hr, ?_⟩
  intro hg
  cases hi : st.idle_ctx with
  | cons c rest =>
    rw [find_lock_phase, hi] at hg
    simp at hg
  | nil =>
    by_cases hgt : st.avail_ctx > B
    · rw [find_lock_phase, hi] at hg
      simp [hgt] at hg
    · refine ⟨by omega, ?_, ?_⟩
      · rw [find_lock_phase, hi]
        simp [hgt]
      · rw [find_lock_phase, hi]
        simp [hgt]
        omega

/-- Witness for C3 (amended) at the freshly initialized pool with bound 1. -/
theorem claim_C3_witness :
    (cifsd_crypto_create true).2.avail_ctx ≤ 1 + 1 ∧
    ((find_lock_phase 1 (cifsd_crypto_create true).2).1 = LockPhase.growing →
      (cifsd_crypto_create true).2.avail_ctx ≤ 1 ∧
      (find_lock_phase 1 (cifsd_crypto_create true).2).2.avail_ctx =
        (cifsd_crypto_create true).2.avail_ctx + 1 ∧
      (find_lock_phase 1 (cifsd_crypto_create true).2).2.avail_ctx ≤ 1 + 1) :=
  claim_C3_amended_counter_bound 1 (cifsd_crypto_create true).2 (by decide)
    (PoolReachable.init true)
